import Mathlib

/-!
Verification of the EC2 polling and launch-coordination layer of
`awsfabrictasks` (`awsfabrictasks/ec2/api.py`), shallowly embedded in Lean.

Conventions of the embedding:
* The instance directory is abstracted by an oracle `stateAt : Nat → String`
  giving the state string observed by the i-th poll; the source re-fetches
  the instance record on every iteration of the polling loop, so each poll
  may observe a different state.
* Observable side effects of `wait_for_state` (the status line reporting the
  wait budget, state queries, calls to `time.sleep`) are recorded, in order,
  in an event trace.
* Python strings become Lean `String`s or `List Char`; the operator input of
  `raw_input` (a Python 2 byte string) becomes a list of byte values.
* The `sleep_intervals` list is mutated in place by `list.extend` in the
  source; the mutation is threaded explicitly: `wait_for_state` returns the
  extended list as `finalIntervals`, and a caller that reuses the same list
  object (the shared default argument, or `wait_for_running_state_many`
  forwarding one kwargs dict) passes `finalIntervals` to the next call.
* `fabric.api.abort` and uncaught exceptions terminate control flow; they
  become explicit result constructors / `Option`-valued pipelines.
-/

/-- Observable events of `wait_for_state`, in order of occurrence:
the initial status line carrying the computed wait budget, each state query
(`Ec2InstanceWrapper.get_by_instanceid` followed by reading `state`), and
each call to `time.sleep`. -/
inductive Event where
  | report (max_wait_sec : Nat) : Event
  | query (index : Nat) : Event
  | sleep (sec : Nat) : Event
  deriving DecidableEq

/-- How a call to `wait_for_state` terminates: normal return on a state
match, `WaitForStateError` after exhausting the intervals (carrying the
target state name and `max_wait_sec` interpolated into its message), or the
`IndexError` Python raises for `sleep_intervals[-1]` on an empty list. -/
inductive WaitResult where
  | success : WaitResult
  | waitForStateError (state_name : String) (max_wait_sec : Nat) : WaitResult
  | indexError : WaitResult
  deriving DecidableEq

/-- Everything observable about one `wait_for_state` call: its event trace,
how it terminated, and the final contents of the (mutated in place)
`sleep_intervals` list object. -/
structure WaitOutcome where
  trace : List Event
  result : WaitResult
  finalIntervals : List Nat
  deriving DecidableEq

/-- The `for index, sleep_sec in enumerate(sleep_intervals)` loop of
`wait_for_state`: query the state; on a match return immediately (`.. OK`),
otherwise sleep for `sleep_sec` and continue; falling off the end of the
list means no match (the caller then raises `WaitForStateError`).
Returns the trace of queries and sleeps and whether a match occurred. -/
def pollLoop (stateAt : Nat → String) (state_name : String) :
    List Nat → Nat → List Event × Bool
  | [], _ => ([], false)
  | sleep_sec :: rest, index =>
    if stateAt index = state_name then
      ([Event.query index], true)
    else
      let next := pollLoop stateAt state_name rest (index + 1)
      (Event.query index :: Event.sleep sleep_sec :: next.1, next.2)

/-- Shallow embedding of `wait_for_state(instanceid, state_name,
sleep_intervals, last_sleep_repeat)`.  Faithful to the source:
`sleep_intervals.extend([sleep_intervals[-1] for x in
xrange(last_sleep_repeat)])` appends `last_sleep_repeat` copies of the last
element (the comprehension never evaluates `sleep_intervals[-1]` when
`last_sleep_repeat == 0`, so an empty list only raises `IndexError` when
`last_sleep_repeat > 0`); `max_wait_sec` is the sum of the extended list,
printed before the first poll; then the polling loop runs and either
returns or raises `WaitForStateError`.  `parse_instanceid` is called first
but performs no network access and does not affect these observables. -/
def wait_for_state (stateAt : Nat → String) (state_name : String)
    (sleep_intervals : List Nat) (last_sleep_repeat : Nat) : WaitOutcome :=
  if h : sleep_intervals = [] then
    if last_sleep_repeat = 0 then
      { trace := [Event.report 0],
        result := WaitResult.waitForStateError state_name 0,
        finalIntervals := [] }
    else
      { trace := [],
        result := WaitResult.indexError,
        finalIntervals := [] }
  else
    let extended :=
      sleep_intervals ++
        List.replicate last_sleep_repeat (sleep_intervals.getLast h)
    let max_wait_sec := extended.sum
    let polled := pollLoop stateAt state_name extended 0
    { trace := Event.report max_wait_sec :: polled.1,
      result :=
        if polled.2 then WaitResult.success
        else WaitResult.waitForStateError state_name max_wait_sec,
      finalIntervals := extended }

/-- Number of state queries recorded in a trace. -/
def queryCount (trace : List Event) : Nat :=
  trace.countP fun e =>
    match e with
    | Event.query _ => true
    | _ => false

/-- Number of `time.sleep` calls recorded in a trace. -/
def sleepCount (trace : List Event) : Nat :=
  trace.countP fun e =>
    match e with
    | Event.sleep _ => true
    | _ => false

/-- The trace produced by the polling loop when no query ever matches:
one query followed by one sleep, for every interval. -/
def timeoutTrace : Nat → List Nat → List Event
  | _, [] => []
  | index, sleep_sec :: rest =>
    Event.query index :: Event.sleep sleep_sec :: timeoutTrace (index + 1) rest

/-- An instance that is observed as `pending` on every poll. -/
def pendingOracle : Nat → String := fun _ => "pending"

/-- An instance that is observed as `running` on every poll. -/
def runningOracle : Nat → String := fun _ => "running"

/-- An instance that is observed as `stopped` on every poll. -/
def stoppedOracle : Nat → String := fun _ => "stopped"

/-- Shallow embedding of `Ec2LaunchInstance.wait_for_running_state_many`:
`for launcher in launchers: wait_for_running_state(launcher.instance.id,
**kwargs)`.  Each launcher is polled with target state `running`; an
uncaught `WaitForStateError` (or any other exception) propagates out of the
`for` loop, so the remaining launchers are not processed.  The shared
`sleep_intervals` list of the forwarded kwargs is threaded from call to
call.  Returns the list of results of the `wait_for_state` calls that were
actually made, in order. -/
def wait_for_running_state_many (oracles : List (Nat → String))
    (sleep_intervals : List Nat) (last_sleep_repeat : Nat) : List WaitResult :=
  match oracles with
  | [] => []
  | o :: rest =>
    let out := wait_for_state o "running" sleep_intervals last_sleep_repeat
    if out.result = WaitResult.success then
      WaitResult.success ::
        wait_for_running_state_many rest out.finalIntervals last_sleep_repeat
    else
      [out.result]

/-- Python 2 `str.lower` on a single byte: bytes 65..90 (A..Z) are shifted
to 97..122 (a..z); every other byte is unchanged. -/
def pyLowerByte (b : Nat) : Nat :=
  if 65 ≤ b ∧ b ≤ 90 then b + 32 else b

/-- Python 2 `str.lower` on a byte string. -/
def pyLower (s : List Nat) : List Nat :=
  s.map pyLowerByte

/-- Shallow embedding of `Ec2LaunchInstance._confirm`: the operator input
line is lowercased and compared against the byte string `"y"` (byte 121);
`True` means proceed, `False` means `fabric.api.abort` is run. -/
def Ec2LaunchInstance._confirm (input : List Nat) : Bool :=
  pyLower input == [121]

/-- Shallow embedding of `Ec2LaunchInstance.confirm_many`: after printing
the summaries it delegates the decision to `_confirm`. -/
def Ec2LaunchInstance.confirm_many (input : List Nat) : Bool :=
  Ec2LaunchInstance._confirm input

/-- The documented batch flow `confirm_many` then `run_many_instances`:
when the confirmation aborts, the script terminates and no launch call is
issued for any launcher (`none`); otherwise every launcher is launched. -/
def confirmManyThenRunMany {α : Type} (input : List Nat) (launchers : List α) :
    Option (List α) :=
  if Ec2LaunchInstance.confirm_many input then some launchers else none

/-- Python `d[k]` / `k in d` lookup on a dict modelled as an association
list: the first binding of the key wins. -/
def dictGet : List (String × String) → String → Option String
  | [], _ => none
  | (k0, v0) :: rest, k => if k0 = k then some v0 else dictGet rest k

/-- Python `d[k] = v` on a dict modelled as an association list: replace
the existing binding of `k`, or append a new one. -/
def setKey : List (String × String) → String → String → List (String × String)
  | [], k, v => [(k, v)]
  | (k0, v0) :: rest, k, v =>
    if k0 = k then (k, v) :: rest else (k0, v0) :: setKey rest k v

/-- Python `d.update(other)`: set every binding of `other` in `d`,
in iteration order. -/
def dictUpdate (d other : List (String × String)) : List (String × String) :=
  other.foldl (fun acc kv => setKey acc kv.1 kv.2) d

/-- `some a` if present, otherwise `b` (Python-style fallback). -/
def optOr (a b : Option String) : Option String :=
  match a with
  | some v => some v
  | none => b

/-- Shallow embedding of `Ec2LaunchInstance.get_all_tags`:
`tags = {}; tags.update(self.conf[...]); tags.update(self.extra_tags)`,
with the config tag dict and the extra tag dict as inputs. -/
def Ec2LaunchInstance.get_all_tags
    (confTags extra_tags : List (String × String)) : List (String × String) :=
  dictUpdate (dictUpdate [] confTags) extra_tags

/-- `s.split(':', 1)` when `':' in s`: `some (left, right)` where `left` is
everything before the first colon and `right` everything after it;
`none` when the string has no colon. -/
def splitFirstColon : List Char → Option (List Char × List Char)
  | [] => none
  | c :: rest =>
    if c = ':' then
      some ([], rest)
    else
      match splitFirstColon rest with
      | none => none
      | some (left, right) => some (c :: left, right)

/-- Shallow embedding of `_parse_instanceident`: split on the first `:` if
present, otherwise the whole string is the identifier and the region is
`awsfab_settings.DEFAULT_REGION` (passed here as `default_region`). -/
def _parse_instanceident (default_region : List Char) (s : List Char) :
    List Char × List Char :=
  match splitFirstColon s with
  | some (region, instanceid) => (region, instanceid)
  | none => (default_region, s)

/-- Shallow embedding of `parse_instanceid`, which delegates to
`_parse_instanceident`. -/
def parse_instanceid (default_region : List Char) (s : List Char) :
    List Char × List Char :=
  _parse_instanceident default_region s

/-- Shallow embedding of `Ec2InstanceWrapper.get_by_tagvalue` after the
`connection.get_all_instances(filters=tags)` call: `reservations` is the
returned list of reservations, each a list of instance records.  The
source raises `LookupError` when `len(reservations) == 0` and otherwise
accumulates every instance of every reservation into `insts`. -/
def Ec2InstanceWrapper.get_by_tagvalue {α : Type}
    (reservations : List (List α)) : Except String (List α) :=
  if reservations.length = 0 then
    Except.error "LookupError"
  else
    Except.ok (reservations.foldl (fun insts r => insts ++ r) [])

theorem queryCount_cons_query (i : Nat) (t : List Event) :
    queryCount (Event.query i :: t) = queryCount t + 1 := by
  simp [queryCount, List.countP_cons]

theorem queryCount_cons_sleep (s : Nat) (t : List Event) :
    queryCount (Event.sleep s :: t) = queryCount t := by
  simp [queryCount, List.countP_cons]

theorem queryCount_cons_report (m : Nat) (t : List Event) :
    queryCount (Event.report m :: t) = queryCount t := by
  simp [queryCount, List.countP_cons]

theorem sleepCount_cons_query (i : Nat) (t : List Event) :
    sleepCount (Event.query i :: t) = sleepCount t := by
  simp [sleepCount, List.countP_cons]

theorem sleepCount_cons_sleep (s : Nat) (t : List Event) :
    sleepCount (Event.sleep s :: t) = sleepCount t + 1 := by
  simp [sleepCount, List.countP_cons]

theorem sleepCount_cons_report (m : Nat) (t : List Event) :
    sleepCount (Event.report m :: t) = sleepCount t := by
  simp [sleepCount, List.countP_cons]

theorem pollLoop_never_match (stateAt : Nat → String) (state_name : String)
    (h : ∀ i, stateAt i ≠ state_name) :
    ∀ (ds : List Nat) (index : Nat),
      pollLoop stateAt state_name ds index = (timeoutTrace index ds, false) := by
  intro ds
  induction ds with
  | nil => intro index; simp [pollLoop, timeoutTrace]
  | cons d rest ih =>
    intro index
    simp [pollLoop, timeoutTrace, h index, ih (index + 1)]

theorem queryCount_timeoutTrace :
    ∀ (ds : List Nat) (index : Nat), queryCount (timeoutTrace index ds) = ds.length := by
  intro ds
  induction ds with
  | nil => intro index; simp [timeoutTrace, queryCount]
  | cons d rest ih =>
    intro index
    rw [timeoutTrace, queryCount_cons_query, queryCount_cons_sleep, ih (index + 1)]
    simp

theorem sleepCount_timeoutTrace :
    ∀ (ds : List Nat) (index : Nat), sleepCount (timeoutTrace index ds) = ds.length := by
  intro ds
  induction ds with
  | nil => intro index; simp [timeoutTrace, sleepCount]
  | cons d rest ih =>
    intro index
    rw [timeoutTrace, sleepCount_cons_query, sleepCount_cons_sleep, ih (index + 1)]
    simp

theorem timeoutTrace_getLast (ds : List Nat) (index : Nat) :
    (timeoutTrace index ds).getLast? = ds.getLast?.map Event.sleep := by
  induction ds generalizing index with
  | nil => simp [timeoutTrace]
  | cons d rest ih =>
    cases rest with
    | nil => rfl
    | cons d2 rest2 =>
      rw [timeoutTrace, List.getLast?_cons_cons]
      have ht : timeoutTrace (index + 1) (d2 :: rest2) =
          Event.query (index + 1) :: Event.sleep d2 ::
            timeoutTrace (index + 1 + 1) rest2 := rfl
      rw [ht, List.getLast?_cons_cons, ← ht, ih (index + 1),
        List.getLast?_cons_cons]

theorem pollLoop_match_at (stateAt : Nat → String) (state_name : String) :
    ∀ (ds : List Nat) (index j : Nat),
      (∀ i, i < j → stateAt (index + i) ≠ state_name) →
      stateAt (index + j) = state_name →
      j < ds.length →
      queryCount (pollLoop stateAt state_name ds index).1 = j + 1 ∧
      sleepCount (pollLoop stateAt state_name ds index).1 = j ∧
      (pollLoop stateAt state_name ds index).2 = true := by
  intro ds
  induction ds with
  | nil => intro index j _ _ hlt; simp at hlt
  | cons d rest ih =>
    intro index j hbefore hmatch hlt
    cases j with
    | zero =>
      have h0 : stateAt index = state_name := by simpa using hmatch
      simp [pollLoop, h0, queryCount, sleepCount, List.countP_cons]
    | succ j' =>
      have h0 : stateAt index ≠ state_name := by
        have := hbefore 0 (Nat.succ_pos j')
        simpa using this
      have hb : ∀ i, i < j' → stateAt (index + 1 + i) ≠ state_name := by
        intro i hi
        have e : index + 1 + i = index + (i + 1) := by omega
        rw [e]
        exact hbefore (i + 1) (by omega)
      have hm : stateAt (index + 1 + j') = state_name := by
        have e : index + 1 + j' = index + (j' + 1) := by omega
        rw [e]; exact hmatch
      obtain ⟨hq, hs, hdone⟩ := ih (index + 1) j' hb hm (by simpa using hlt)
      refine ⟨?_, ?_, ?_⟩
      · simp only [pollLoop, if_neg h0]
        rw [queryCount_cons_query, queryCount_cons_sleep, hq]
      · simp only [pollLoop, if_neg h0]
        rw [sleepCount_cons_query, sleepCount_cons_sleep, hs]
      · simp only [pollLoop, if_neg h0]
        exact hdone

theorem wait_for_state_ne_nil (stateAt : Nat → String) (state_name : String)
    (l : List Nat) (r : Nat) (hne : l ≠ []) :
    wait_for_state stateAt state_name l r =
      { trace := Event.report (l ++ List.replicate r (l.getLast hne)).sum ::
          (pollLoop stateAt state_name (l ++ List.replicate r (l.getLast hne)) 0).1,
        result :=
          if (pollLoop stateAt state_name (l ++ List.replicate r (l.getLast hne)) 0).2 then
            WaitResult.success
          else
            WaitResult.waitForStateError state_name
              (l ++ List.replicate r (l.getLast hne)).sum,
        finalIntervals := l ++ List.replicate r (l.getLast hne) } := by
  rw [wait_for_state, dif_neg hne]

theorem wfs_trace (stateAt : Nat → String) (state_name : String)
    (l : List Nat) (r : Nat) (hne : l ≠ []) :
    (wait_for_state stateAt state_name l r).trace =
      Event.report (l ++ List.replicate r (l.getLast hne)).sum ::
        (pollLoop stateAt state_name (l ++ List.replicate r (l.getLast hne)) 0).1 := by
  rw [wait_for_state_ne_nil stateAt state_name l r hne]

theorem wfs_result (stateAt : Nat → String) (state_name : String)
    (l : List Nat) (r : Nat) (hne : l ≠ []) :
    (wait_for_state stateAt state_name l r).result =
      (if (pollLoop stateAt state_name (l ++ List.replicate r (l.getLast hne)) 0).2 then
        WaitResult.success
      else
        WaitResult.waitForStateError state_name
          (l ++ List.replicate r (l.getLast hne)).sum) := by
  rw [wait_for_state_ne_nil stateAt state_name l r hne]

theorem wfs_finalIntervals (stateAt : Nat → String) (state_name : String)
    (l : List Nat) (r : Nat) (hne : l ≠ []) :
    (wait_for_state stateAt state_name l r).finalIntervals =
      l ++ List.replicate r (l.getLast hne) := by
  rw [wait_for_state_ne_nil stateAt state_name l r hne]

theorem extended_getLast (l : List Nat) (hne : l ≠ []) (r : Nat) :
    (l ++ List.replicate r (l.getLast hne)).getLast? = some (l.getLast hne) := by
  cases r with
  | zero => simpa using List.getLast?_eq_getLast_of_ne_nil hne
  | succ n =>
    rw [List.replicate_succ', ← List.append_assoc]
    exact List.getLast?_concat _

theorem timeoutTrace_ne_nil (ds : List Nat) (hne : ds ≠ []) (index : Nat) :
    timeoutTrace index ds ≠ [] := by
  cases ds with
  | nil => exact absurd rfl hne
  | cons d rest => simp [timeoutTrace]

/-- C1 (amended): when the queried state never equals the target state,
`wait_for_state` performs exactly `len(sleep_intervals) + last_sleep_repeat`
state queries and the same number of sleeps — one after every unsuccessful
query, including one after the last query just before raising — and raises
`WaitForStateError` whose `max_wait_sec` equals the precomputed sum of the
duration sequence.  The claim as stated asserted that no sleep happens after
the last query; the code sleeps after every failed query, the last included. -/
theorem C1_timeout_behavior (stateAt : Nat → String) (state_name : String)
    (l : List Nat) (r : Nat) (hne : l ≠ [])
    (hmiss : ∀ i, stateAt i ≠ state_name) :
    queryCount (wait_for_state stateAt state_name l r).trace = l.length + r ∧
    sleepCount (wait_for_state stateAt state_name l r).trace = l.length + r ∧
    (wait_for_state stateAt state_name l r).trace.getLast? =
      some (Event.sleep (l.getLast hne)) ∧
    (wait_for_state stateAt state_name l r).result =
      WaitResult.waitForStateError state_name
        (l ++ List.replicate r (l.getLast hne)).sum := by
  have hext : (l ++ List.replicate r (l.getLast hne)) ≠ [] := by
    simp [hne]
  rw [wfs_trace stateAt state_name l r hne, wfs_result stateAt state_name l r hne,
    pollLoop_never_match stateAt state_name hmiss]
  refine ⟨?_, ?_, ?_, ?_⟩
  · rw [queryCount_cons_report, queryCount_timeoutTrace]
    simp
  · rw [sleepCount_cons_report, sleepCount_timeoutTrace]
    simp
  · rw [show Event.report (l ++ List.replicate r (l.getLast hne)).sum ::
        timeoutTrace 0 (l ++ List.replicate r (l.getLast hne)) =
        [Event.report (l ++ List.replicate r (l.getLast hne)).sum] ++
        timeoutTrace 0 (l ++ List.replicate r (l.getLast hne)) from rfl,
      List.getLast?_append_of_ne_nil _ (timeoutTrace_ne_nil _ hext 0),
      timeoutTrace_getLast, extended_getLast l hne r]
    rfl
  · rfl

/-- C3: if the target state is first observed on query number k (1-indexed,
k within the sequence length), `wait_for_state` returns success after
exactly k queries and k - 1 sleeps; in particular with k = 1 the first
query happens before any sleep. -/
theorem C3_match_at_k (stateAt : Nat → String) (state_name : String)
    (l : List Nat) (r : Nat) (hne : l ≠ []) (k : Nat)
    (hk1 : 1 ≤ k) (hk : k ≤ l.length + r)
    (hbefore : ∀ i, i < k - 1 → stateAt i ≠ state_name)
    (hmatch : stateAt (k - 1) = state_name) :
    queryCount (wait_for_state stateAt state_name l r).trace = k ∧
    sleepCount (wait_for_state stateAt state_name l r).trace = k - 1 ∧
    (wait_for_state stateAt state_name l r).result = WaitResult.success := by
  have hlen : (l ++ List.replicate r (l.getLast hne)).length = l.length + r := by
    simp
  obtain ⟨hq, hs, hdone⟩ := pollLoop_match_at stateAt state_name
    (l ++ List.replicate r (l.getLast hne)) 0 (k - 1)
    (fun i hi => by simpa using hbefore i hi)
    (by simpa using hmatch)
    (by omega)
  rw [wfs_trace stateAt state_name l r hne, wfs_result stateAt state_name l r hne]
  refine ⟨?_, ?_, ?_⟩
  · rw [queryCount_cons_report, hq]
    omega
  · rw [sleepCount_cons_report, hs]
  · rw [hdone]
    rfl

/-- C4 (amended): an empty `sleep_intervals` list is not rejected with a
configuration error: with `last_sleep_repeat > 0` the call dies with the
`IndexError` of taking the last element of the empty list — before any
state query or output — and with `last_sleep_repeat = 0` it immediately
raises `WaitForStateError` with a zero budget after zero queries. -/
theorem C4_empty_intervals (stateAt : Nat → String) (state_name : String)
    (r : Nat) (hr : r ≠ 0) :
    ((wait_for_state stateAt state_name [] r).result = WaitResult.indexError ∧
      (wait_for_state stateAt state_name [] r).trace = []) ∧
    ((wait_for_state stateAt state_name [] 0).result =
        WaitResult.waitForStateError state_name 0 ∧
      queryCount (wait_for_state stateAt state_name [] 0).trace = 0) := by
  refine ⟨⟨?_, ?_⟩, ?_, ?_⟩ <;>
    simp [wait_for_state, hr, queryCount, List.countP_cons]

/-- C10: `wait_for_state` mutates its `sleep_intervals` argument in place,
extending it by `last_sleep_repeat` copies of its last element; a later
call that reuses the shared default list object therefore runs with a
duration sequence of length 2 + 2r, strictly longer than
`len([15, 5]) + last_sleep_repeat` when the repeat count is positive. -/
theorem C10_shared_default_growth (o1 o2 : Nat → String) (t1 t2 : String)
    (r : Nat) (hr : 0 < r) :
    (wait_for_state o1 t1 [15, 5] r).finalIntervals =
      [15, 5] ++ List.replicate r 5 ∧
    (wait_for_state o2 t2
      (wait_for_state o1 t1 [15, 5] r).finalIntervals r).finalIntervals.length =
      2 + r + r ∧
    2 + r < 2 + r + r := by
  have h15 : ([15, 5] : List Nat) ≠ [] := by simp
  have h1 : (wait_for_state o1 t1 [15, 5] r).finalIntervals =
      [15, 5] ++ List.replicate r 5 := wfs_finalIntervals o1 t1 [15, 5] r h15
  have hL : ([15, 5] ++ List.replicate r 5 : List Nat) ≠ [] := by simp
  refine ⟨h1, ?_, by omega⟩
  rw [h1, wfs_finalIntervals o2 t2 ([15, 5] ++ List.replicate r 5) r hL]
  simp
  omega

/-- C2: for every non-empty `sleep_intervals` and every repeat count, the
duration sequence built by `wait_for_state` is the ramp intervals followed
by `last_sleep_repeat` copies of the last ramp element, its length is
`len(sleep_intervals) + last_sleep_repeat`, and the first observable event
— emitted before any poll — reports a maximum wait equal to the sum of
that sequence. -/
theorem C2_plan_length_sum (stateAt : Nat → String) (state_name : String)
    (l : List Nat) (r : Nat) (hne : l ≠ []) :
    (wait_for_state stateAt state_name l r).finalIntervals =
      l ++ List.replicate r (l.getLast hne) ∧
    (wait_for_state stateAt state_name l r).finalIntervals.length = l.length + r ∧
    (wait_for_state stateAt state_name l r).trace.head? =
      some (Event.report (wait_for_state stateAt state_name l r).finalIntervals.sum) := by
  have hf := wfs_finalIntervals stateAt state_name l r hne
  refine ⟨hf, ?_, ?_⟩
  · rw [hf]; simp
  · rw [hf, wfs_trace stateAt state_name l r hne]
    rfl

/-- C1 counterexample: with a single interval, no repeats and a state that
never matches, the code performs 1 query and 1 sleep, and the last trace
event is a sleep following the final query — refuting the claim that sleeps
happen only between consecutive queries (which would require 0 sleeps). -/
theorem C1_counterexample :
    queryCount (wait_for_state pendingOracle "running" [1] 0).trace = 1 ∧
    sleepCount (wait_for_state pendingOracle "running" [1] 0).trace = 1 ∧
    (wait_for_state pendingOracle "running" [1] 0).trace.getLast? =
      some (Event.sleep 1) := by decide

/-- C1 witness: the amended theorem evaluated at a concrete never-matching
instance with intervals 15, 5 and 2 repeats. -/
theorem C1_witness :
    queryCount (wait_for_state pendingOracle "running" [15, 5] 2).trace = 4 ∧
    sleepCount (wait_for_state pendingOracle "running" [15, 5] 2).trace = 4 ∧
    (wait_for_state pendingOracle "running" [15, 5] 2).trace.getLast? =
      some (Event.sleep 5) ∧
    (wait_for_state pendingOracle "running" [15, 5] 2).result =
      WaitResult.waitForStateError "running" 30 := by
  have h := C1_timeout_behavior pendingOracle "running" [15, 5] 2
    (by decide) (fun i => show ("pending" : String) ≠ "running" by decide)
  exact ⟨h.1.trans (by decide), h.2.1.trans (by decide),
    h.2.2.1.trans (by decide), h.2.2.2.trans (by decide)⟩

/-- C2 witness: the plan theorem evaluated at intervals 15, 5 with 2
repeats: sequence 15, 5, 5, 5 of length 4, reported budget 30. -/
theorem C2_witness :
    (wait_for_state pendingOracle "running" [15, 5] 2).finalIntervals =
      [15, 5, 5, 5] ∧
    (wait_for_state pendingOracle "running" [15, 5] 2).finalIntervals.length = 4 ∧
    (wait_for_state pendingOracle "running" [15, 5] 2).trace.head? =
      some (Event.report 30) := by
  have h := C2_plan_length_sum pendingOracle "running" [15, 5] 2 (by decide)
  exact ⟨h.1.trans (by decide), h.2.1.trans (by decide),
    h.2.2.trans (by decide)⟩

/-- C3 witness: an instance already in the target state on the first poll
is detected with exactly one query and zero sleeps. -/
theorem C3_witness :
    queryCount (wait_for_state runningOracle "running" [15, 5] 2).trace = 1 ∧
    sleepCount (wait_for_state runningOracle "running" [15, 5] 2).trace = 0 ∧
    (wait_for_state runningOracle "running" [15, 5] 2).result =
      WaitResult.success := by
  have h := C3_match_at_k runningOracle "running" [15, 5] 2 (by decide) 1
    (by decide) (by decide) (fun i hi => absurd hi (by omega)) (by decide)
  exact ⟨h.1, h.2.1, h.2.2⟩

/-- C4 counterexample: called with an empty interval list and the default
40 repeats, `wait_for_state` crashes with `IndexError` (empty trace, no
configuration error) exactly on taking the last element of the empty
sequence. -/
theorem C4_counterexample :
    (wait_for_state pendingOracle "running" [] 40).result =
      WaitResult.indexError ∧
    (wait_for_state pendingOracle "running" [] 40).trace = [] := by decide

/-- C4 witness: the amended theorem evaluated at 40 repeats. -/
theorem C4_witness :
    ((wait_for_state pendingOracle "running" [] 40).result =
        WaitResult.indexError ∧
      (wait_for_state pendingOracle "running" [] 40).trace = []) ∧
    ((wait_for_state pendingOracle "running" [] 0).result =
        WaitResult.waitForStateError "running" 0 ∧
      queryCount (wait_for_state pendingOracle "running" [] 0).trace = 0) :=
  C4_empty_intervals pendingOracle "running" 40 (by decide)

/-- C10 witness: the growth theorem evaluated at the default repeat count
40: the second default call uses a sequence of 82 durations instead of
42. -/
theorem C10_witness :
    (wait_for_state pendingOracle "running" [15, 5] 40).finalIntervals =
      [15, 5] ++ List.replicate 40 5 ∧
    (wait_for_state runningOracle "stopped"
      (wait_for_state pendingOracle "running" [15, 5] 40).finalIntervals
      40).finalIntervals.length = 82 ∧
    2 + 40 < 82 := by
  have h := C10_shared_default_growth pendingOracle runningOracle
    "running" "stopped" 40 (by decide)
  exact ⟨h.1, h.2.1.trans (by decide), by decide⟩

/-- C5 (amended): in `wait_for_running_state_many`, a `WaitForStateError`
— or any other non-success outcome — raised while waiting on a launched
instance propagates out of the loop uncaught, so the subsequent instances
of the batch are NOT waited on: the batch stops at the first failure. -/
theorem C5_failure_aborts_batch (o : Nat → String) (os : List (Nat → String))
    (l : List Nat) (r : Nat)
    (h : (wait_for_state o "running" l r).result ≠ WaitResult.success) :
    wait_for_running_state_many (o :: os) l r =
      [(wait_for_state o "running" l r).result] := by
  rw [wait_for_running_state_many]
  simp only [if_neg h]

/-- C5 counterexample: a batch of two launchers where the first one times
out produces a single `wait_for_state` outcome; the second launcher is
never waited on, refuting the claim that every instance in the batch is
still waited on. -/
theorem C5_counterexample :
    wait_for_running_state_many [pendingOracle, runningOracle] [1] 0 =
      [WaitResult.waitForStateError "running" 1] ∧
    (wait_for_running_state_many [pendingOracle, runningOracle] [1] 0).length ≠
      ([pendingOracle, runningOracle] : List (Nat → String)).length := by
  constructor
  · decide
  · decide

/-- C5 witness: the amended theorem evaluated at a concrete batch whose
first instance stays in a non-matching state. -/
theorem C5_witness :
    wait_for_running_state_many [stoppedOracle, runningOracle] [2] 0 =
      [WaitResult.waitForStateError "running" 2] := by
  have h := C5_failure_aborts_batch stoppedOracle [runningOracle] [2] 0
    (by decide)
  rw [h]
  decide

theorem pyLowerByte_eq_y (b : Nat) :
    pyLowerByte b = 121 ↔ b = 121 ∨ b = 89 := by
  unfold pyLowerByte
  split <;> omega

theorem pyLower_eq_y (input : List Nat) :
    pyLower input = [121] ↔ input = [121] ∨ input = [89] := by
  cases input with
  | nil => simp [pyLower]
  | cons b rest =>
    cases rest with
    | nil => simp [pyLower, pyLowerByte_eq_y]
    | cons b2 rest2 => simp [pyLower]

/-- C6: the batch confirmation flow treats the operator input line as
affirmative iff it is case-insensitively equal to the byte string "y"
(that is, iff it is byte 121 "y" or byte 89 "Y"); for any other input the
flow aborts and no launch call is issued for any request in the batch. -/
theorem C6_confirm_iff (α : Type) (input : List Nat) (launchers : List α) :
    confirmManyThenRunMany input launchers =
      (if input = [121] ∨ input = [89] then some launchers else none) := by
  simp only [confirmManyThenRunMany, Ec2LaunchInstance.confirm_many,
    Ec2LaunchInstance._confirm, beq_iff_eq, pyLower_eq_y]

theorem dictGet_setKey (d : List (String × String)) (k v k2 : String) :
    dictGet (setKey d k v) k2 = if k = k2 then some v else dictGet d k2 := by
  induction d with
  | nil => by_cases h2 : k = k2 <;> simp [setKey, dictGet, h2]
  | cons p rest ih =>
    obtain ⟨k0, v0⟩ := p
    by_cases h0 : k0 = k
    · subst h0
      by_cases h2 : k0 = k2 <;> simp [setKey, dictGet, h2]
    · by_cases h02 : k0 = k2
      · subst h02
        have hk2 : ¬(k = k0) := fun he => h0 he.symm
        simp [setKey, dictGet, h0, hk2]
      · by_cases hk2 : k = k2
        · subst hk2
          simp [setKey, dictGet, h0, h02, ih]
        · simp [setKey, dictGet, h0, h02, hk2, ih]

theorem dictGet_eq_none (d : List (String × String)) (k : String)
    (h : ∀ p ∈ d, p.1 ≠ k) : dictGet d k = none := by
  induction d with
  | nil => rfl
  | cons p rest ih =>
    obtain ⟨k0, v0⟩ := p
    rw [dictGet, if_neg (h (k0, v0) (List.mem_cons_self _ _))]
    exact ih fun q hq => h q (List.mem_cons_of_mem _ hq)

theorem dictGet_dictUpdate :
    ∀ (other d : List (String × String)) (k : String),
      (other.map Prod.fst).Nodup →
      dictGet (dictUpdate d other) k = optOr (dictGet other k) (dictGet d k) := by
  intro other
  induction other with
  | nil => intro d k _; rfl
  | cons p rest ih =>
    intro d k hnd
    obtain ⟨k1, v1⟩ := p
    rw [List.map_cons] at hnd
    obtain ⟨hk1, hrest⟩ := List.nodup_cons.mp hnd
    have hnotin : ∀ q ∈ rest, q.1 ≠ k1 := by
      intro q hq he
      apply hk1
      rw [← he]
      exact List.mem_map.mpr ⟨q, hq, rfl⟩
    rw [show dictUpdate d ((k1, v1) :: rest) =
      dictUpdate (setKey d k1 v1) rest from rfl]
    rw [ih (setKey d k1 v1) k hrest, dictGet_setKey]
    by_cases h1 : k1 = k
    · subst h1
      rw [dictGet_eq_none rest k1 hnotin, if_pos rfl, dictGet, if_pos rfl]
      rfl
    · rw [if_neg h1, dictGet, if_neg h1]

/-- C7: for every config tag dict and extra tag dict (with unique keys, as
Python dicts have), the merged dict returned by `get_all_tags` maps every
key to the extra tags value when present and otherwise to the config value:
the config defaults overwritten key-by-key by the extra tags. -/
theorem C7_get_all_tags_merge (confTags extra_tags : List (String × String))
    (hc : (confTags.map Prod.fst).Nodup) (he : (extra_tags.map Prod.fst).Nodup)
    (k : String) :
    dictGet (Ec2LaunchInstance.get_all_tags confTags extra_tags) k =
      optOr (dictGet extra_tags k) (dictGet confTags k) := by
  unfold Ec2LaunchInstance.get_all_tags
  rw [dictGet_dictUpdate extra_tags _ k he, dictGet_dictUpdate confTags [] k hc]
  cases dictGet confTags k <;> cases dictGet extra_tags k <;> rfl

/-- C7 witness: the merge theorem evaluated at the example of the spec:
config Name=a, Env=prod with extra Name=b yields Name=b, Env=prod. -/
theorem C7_witness :
    dictGet (Ec2LaunchInstance.get_all_tags
      [("Name", "a"), ("Env", "prod")] [("Name", "b")]) "Name" = some "b" ∧
    dictGet (Ec2LaunchInstance.get_all_tags
      [("Name", "a"), ("Env", "prod")] [("Name", "b")]) "Env" = some "prod" := by
  have h1 := C7_get_all_tags_merge [("Name", "a"), ("Env", "prod")]
    [("Name", "b")] (by decide) (by decide) "Name"
  have h2 := C7_get_all_tags_merge [("Name", "a"), ("Env", "prod")]
    [("Name", "b")] (by decide) (by decide) "Env"
  exact ⟨h1.trans (by decide), h2.trans (by decide)⟩

theorem splitFirstColon_append (left right : List Char) (h : ':' ∉ left) :
    splitFirstColon (left ++ ':' :: right) = some (left, right) := by
  induction left with
  | nil => simp [splitFirstColon]
  | cons c cs ih =>
    have hc : ¬(c = ':') := fun he => h (List.mem_cons.mpr (Or.inl he.symm))
    have hcs : ':' ∉ cs := fun hm => h (List.mem_cons_of_mem c hm)
    rw [List.cons_append, splitFirstColon, if_neg hc, ih hcs]

theorem splitFirstColon_none (s : List Char) (h : ':' ∉ s) :
    splitFirstColon s = none := by
  induction s with
  | nil => rfl
  | cons c cs ih =>
    have hc : ¬(c = ':') := fun he => h (List.mem_cons.mpr (Or.inl he.symm))
    have hcs : ':' ∉ cs := fun hm => h (List.mem_cons_of_mem c hm)
    rw [splitFirstColon, if_neg hc, ih hcs]

/-- C8: instance-identifier parsing splits on the first colon only — the
part before it is the region and the remainder, further colons included,
is the identifier — and a string without a colon is entirely the
identifier, with the region taken from the configured default. -/
theorem C8_parse_instanceid (default_region left right s : List Char)
    (hleft : ':' ∉ left) (hs : ':' ∉ s) :
    parse_instanceid default_region (left ++ ':' :: right) = (left, right) ∧
    parse_instanceid default_region s = (default_region, s) := by
  constructor
  · unfold parse_instanceid _parse_instanceident
    rw [splitFirstColon_append left right hleft]
  · unfold parse_instanceid _parse_instanceident
    rw [splitFirstColon_none s hs]

/-- C8 witness: the parsing theorem evaluated at the examples of the spec:
"us-east-1:i-1234" and the region-less "i-1234". -/
theorem C8_witness :
    parse_instanceid ("eu-west-1".toList) ("us-east-1:i-1234".toList) =
      ("us-east-1".toList, "i-1234".toList) ∧
    parse_instanceid ("eu-west-1".toList) ("i-1234".toList) =
      ("eu-west-1".toList, "i-1234".toList) := by
  have h := C8_parse_instanceid ("eu-west-1".toList) ("us-east-1".toList)
    ("i-1234".toList) ("i-1234".toList) (by decide) (by decide)
  constructor
  · have e : ("us-east-1:i-1234".toList) =
        ("us-east-1".toList ++ ':' :: "i-1234".toList) := by decide
    rw [e]
    exact h.1
  · exact h.2

theorem foldl_append_eq_join (α : Type) :
    ∀ (rs : List (List α)) (acc : List α),
      rs.foldl (fun insts r => insts ++ r) acc = acc ++ rs.flatten := by
  intro rs
  induction rs with
  | nil => intro acc; simp
  | cons r rest ih =>
    intro acc
    simp [ih, List.append_assoc]

/-- C9 (amended): `get_by_tagvalue` raises `LookupError` exactly when the
query returns an empty reservation list; a non-empty reservation list is
flattened and returned as success, even when all of its reservations are
empty, so a query yielding zero instance records can still be treated as
success with an empty result. -/
theorem C9_get_by_tagvalue (α : Type) (reservations : List (List α)) :
    (Ec2InstanceWrapper.get_by_tagvalue reservations =
        Except.error "LookupError" ↔ reservations = []) ∧
    (reservations ≠ [] →
      Ec2InstanceWrapper.get_by_tagvalue reservations =
        Except.ok reservations.flatten) := by
  constructor
  · constructor
    · intro h
      by_contra hne
      unfold Ec2InstanceWrapper.get_by_tagvalue at h
      rw [if_neg (by simpa [List.length_eq_zero] using hne)] at h
      exact Except.noConfusion h
    · intro h
      subst h
      rfl
  · intro hne
    unfold Ec2InstanceWrapper.get_by_tagvalue
    rw [if_neg (by simpa [List.length_eq_zero] using hne),
      foldl_append_eq_join]
    simp

/-- C9 counterexample: a query returning one reservation with no instances
yields an empty sequence of instance records, yet `get_by_tagvalue`
returns success with an empty list instead of raising `LookupError`,
refuting the claim as stated. -/
theorem C9_counterexample :
    ([[]] : List (List Nat)).flatten = [] ∧
    Ec2InstanceWrapper.get_by_tagvalue ([[]] : List (List Nat)) =
      Except.ok [] := by
  constructor
  · rfl
  · rfl

/-- C9 witness: the amended theorem evaluated at a concrete non-empty
reservation list. -/
theorem C9_witness :
    Ec2InstanceWrapper.get_by_tagvalue ([[1, 2], []] : List (List Nat)) =
      Except.ok [1, 2] ∧
    ¬(Ec2InstanceWrapper.get_by_tagvalue ([[1, 2], []] : List (List Nat)) =
      Except.error "LookupError") := by
  have h := C9_get_by_tagvalue Nat [[1, 2], []]
  constructor
  · exact (h.2 (by decide)).trans (by rfl)
  · intro hc
    exact absurd (h.1.mp hc) (by decide)
